import Mathlib

/-!
Verification development for the MILA publications scraper
(`scrape_mila_publications.py`).

The script is embedded shallowly.  Python strings are sequences of Unicode
code points and are modelled as `List Char`, so that every string primitive
the script relies on (prefix tests, substring containment, case folding,
whitespace stripping) is a structurally recursive Lean function that the
kernel can evaluate.  External library primitives that the script calls —
the HTTP transport (`requests`), the HTML tree queries (`BeautifulSoup`),
the regular-expression engine (`re`), URL parsing and joining
(`urllib.parse`) and the system clock — are treated as oracles: their
results are inputs to the embedded functions, while every piece of control
flow and data combination written in the script itself is translated
faithfully.
-/

namespace MilaScrape

/-- A Python string, modelled as its list of code points. -/
abbrev Str := List Char

/-- Python `str.startswith`: the second argument is a prefix of the first. -/
def startsWithStr : Str → Str → Bool
  | _, [] => true
  | [], _ :: _ => false
  | c :: s, d :: p => c == d && startsWithStr s p

/-- Python `needle in hay` substring containment. -/
def containsStr : Str → Str → Bool
  | [], needle => needle.isEmpty
  | c :: rest, needle => startsWithStr (c :: rest) needle || containsStr rest needle

/-- Python `str.endswith`. -/
def endsWithStr (s suffixStr : Str) : Bool :=
  startsWithStr s.reverse suffixStr.reverse

/-- Python `str.lower` (ASCII case folding, which covers every string the
script lowercases). -/
def lowerStr (s : Str) : Str := s.map Char.toLower

/-- Python `str.strip` with no argument: remove leading and trailing
whitespace. -/
def stripStr (s : Str) : Str :=
  ((s.dropWhile Char.isWhitespace).reverse.dropWhile Char.isWhitespace).reverse

/-- Join a list of strings with a separator (Python `sep.join`). -/
def joinWith (sep : Str) : List Str → Str
  | [] => []
  | [x] => x
  | x :: y :: rest => x ++ sep ++ joinWith sep (y :: rest)

/-- Helper for `wordsStr`: accumulate the current word (reversed) while
scanning. -/
def wordsStrGo : Str → Str → List Str
  | [], cur => if cur.isEmpty then [] else [cur.reverse]
  | c :: rest, cur =>
    if c.isWhitespace then
      if cur.isEmpty then wordsStrGo rest [] else cur.reverse :: wordsStrGo rest []
    else wordsStrGo rest (c :: cur)

/-- The maximal whitespace-free runs of a string, in order. -/
def wordsStr (s : Str) : List Str := wordsStrGo s []

/-- `clean_text` from the script: collapse every whitespace run to a single
space and strip the ends (`re.sub(r"\s+", " ", s).strip()`).  Collapsing and
stripping is the same as joining the whitespace-free runs with single
spaces. -/
def clean_text (s : Str) : Str := joinWith [' '] (wordsStr s)

/-- Everything after the first colon of a line
(Python `line.split(":", 1)[1]`, used only on lines known to contain a
colon; on a colon-free line the script would raise, here we return the
empty string). -/
def afterColon : Str → Str
  | [] => []
  | c :: rest => if c == ':' then rest else afterColon rest

/-- Split a string at every occurrence of a separator character, keeping
empty segments (used for `str.splitlines`; a possible trailing empty
segment is discarded by the blank-line guard of the robots parser). -/
def splitCharGo (sep : Char) : Str → Str → List Str
  | [], cur => [cur.reverse]
  | c :: rest, cur =>
    if c == sep then cur.reverse :: splitCharGo sep rest []
    else splitCharGo sep rest (c :: cur)

/-- Python `str.splitlines` for newline-separated text. -/
def splitLines (s : Str) : List Str := splitCharGo '\n' s []

/-- Strict code-point lexicographic order on strings, as used by Python
`sorted`. -/
def strLt : Str → Str → Bool
  | [], [] => false
  | [], _ :: _ => true
  | _ :: _, [] => false
  | a :: s1, b :: s2 => decide (a < b) || (a == b && strLt s1 s2)

/-- Non-strict counterpart of `strLt`. -/
def strLe (a b : Str) : Bool := !(strLt b a)

/-- Insert into a sorted list of strings (helper for `sortStrs`). -/
def insertSorted (x : Str) : List Str → List Str
  | [] => [x]
  | y :: ys => if strLe x y then x :: y :: ys else y :: insertSorted x ys

/-- Sort a list of strings lexicographically (models Python `sorted`). -/
def sortStrs (l : List Str) : List Str := l.foldr insertSorted []

/-- Remove duplicates keeping the first occurrence (helper modelling the
Python `set` constructor; the subsequent sort makes the intermediate order
irrelevant). -/
def dedupStrsGo (seen : List Str) : List Str → List Str
  | [] => []
  | x :: xs =>
    if x ∈ seen then dedupStrsGo seen xs else x :: dedupStrsGo (x :: seen) xs

/-- Python `sorted(set(l))` for lists of strings. -/
def pySortedSet (l : List Str) : List Str := sortStrs (dedupStrsGo [] l)

/-- Decimal digit character. -/
def digitChar (n : Nat) : Char := Char.ofNat (48 + n)

/-- Fuel-driven decimal rendering helper. -/
def natToStrGo : Nat → Nat → Str → Str
  | 0, _, acc => acc
  | fuel + 1, n, acc =>
    if n < 10 then digitChar n :: acc
    else natToStrGo fuel (n / 10) (digitChar (n % 10) :: acc)

/-- Python `str(n)` for a natural number. -/
def natToStr (n : Nat) : Str := natToStrGo (n + 1) n []

/-!  Configuration constants of the script. -/

/-- `MAX_RETRIES` from the script. -/
def MAX_RETRIES : Nat := 3

/-- The literal pagination guard bound of the `while` loop in
`gather_candidate_urls` (`page_guard < 50`). -/
def PAGE_GUARD_CAP : Nat := 50

/-- `KEYWORDS` from the script (already lowercase in the source; the
`kw.lower()` in the list comprehension is the identity on them). -/
def KEYWORDS : List Str := [
  "rare disease".toList, "orphan disease".toList, "orphan diseases".toList,
  "maladies rares".toList, "maladie rare".toList,
  "genetic disorder".toList, "inherited disorder".toList, "rare genetic".toList,
  "orphan drug".toList, "orphan designation".toList,
  "supercomputer".toList, "super-computer".toList, "superordinateur".toList,
  "hpc".toList, "high performance computing".toList, "high-performance computing".toList,
  "gpu cluster".toList, "compute cluster".toList, "accelerated computing".toList,
  "cuda".toList, "multi-gpu".toList, "distributed training".toList,
  "quantum".toList, "quantum computing".toList, "quantum algorithm".toList,
  "qubit".toList, "quantique".toList, "informatique quantique".toList, "annealing".toList,
  "bioinformatics".toList, "genomics".toList, "proteomics".toList,
  "transcriptomics".toList, "metagenomics".toList,
  "drug discovery".toList, "drug repurposing".toList, "molecular".toList,
  "protein".toList, "variant".toList, "pathogenicity".toList,
  "clinical".toList, "medical imaging".toList, "radiology".toList,
  "radiomics".toList, "ehrs".toList, "healthcare".toList,
  "precision medicine".toList, "biomedical".toList,
  "disease model".toList, "patient stratification".toList, "therapeutic".toList,
  "trial".toList, "biobank".toList,
  "graph neural network".toList, "gnn".toList, "transformer".toList,
  "large language model".toList, "llm".toList, "foundation model".toList,
  "multimodal".toList, "self-supervised".toList, "few-shot".toList,
  "federated learning".toList, "differential privacy".toList, "interpretability".toList]

/-- `COLUMNS` from the script: the fixed, ordered spreadsheet schema. -/
def COLUMNS : List Str := [
  "title".toList, "authors".toList, "year".toList, "date".toList, "venue".toList,
  "type".toList, "tags".toList, "abstract".toList, "doi".toList, "pdf_url".toList,
  "code_url".toList, "language".toList, "url".toList, "slug".toList,
  "page_h1".toList, "page_meta_title".toList, "page_meta_desc".toList,
  "raw_text_length".toList]

/-!  The fetch layer (`fetch`). -/

/-- One attempt of `SESSION.get`: either an HTTP response with a status
code, or a network-level `requests.RequestException`. -/
inductive Outcome where
  | status (s : Nat)
  | exc
deriving DecidableEq, Repr

/-- Result of a `fetch` run: the status of the returned response (if any),
the number of attempts performed, and the number of backoff sleeps. -/
structure FetchResult where
  response : Option Nat
  attempts : Nat
  sleeps : Nat
deriving DecidableEq, Repr

/-- `Response.ok` of the requests library: true for status codes below
400. -/
def resp_ok (s : Nat) : Bool := s < 400

/-- The retry loop body of `fetch`, translated branch for branch.  The
oracle `att` gives the outcome of attempt number `i`; the fuel mirrors
`range(MAX_RETRIES)`. -/
def fetchGo (att : Nat → Outcome) : Nat → Nat → Nat → FetchResult
  | 0, i, sl => { response := none, attempts := i, sleeps := sl }
  | fuel + 1, i, sl =>
    match att i with
    | .exc => fetchGo att fuel (i + 1) (sl + 1)
    | .status s =>
      if s = 429 ∨ s = 503 then fetchGo att fuel (i + 1) (sl + 1)
      else if resp_ok s then { response := some s, attempts := i + 1, sleeps := sl }
      else if s = 401 ∨ s = 403 ∨ s = 404 then { response := some s, attempts := i + 1, sleeps := sl }
      else fetchGo att fuel (i + 1) sl

/-- `fetch(url)`: run the bounded retry loop from attempt 0. -/
def fetch (att : Nat → Outcome) : FetchResult := fetchGo att MAX_RETRIES 0 0

/-- An attempt outcome on which the loop body returns a response. -/
def attempt_returns (o : Outcome) : Bool :=
  match o with
  | .exc => false
  | .status s =>
    if s = 429 ∨ s = 503 then false
    else if resp_ok s then true
    else decide (s = 401 ∨ s = 403 ∨ s = 404)

/-- An attempt outcome on which the loop sleeps a backoff interval before
the next attempt (HTTP 429/503 or a network-level exception). -/
def attempt_retries (o : Outcome) : Bool :=
  match o with
  | .exc => true
  | .status s => decide (s = 429 ∨ s = 503)

/-!  The robots compliance gate (`load_robots`, `robots_blocking_rule`,
`can_fetch_robots`). -/

/-- A fetched HTTP response as the robots loader sees it: its `ok` flag and
its body text. -/
structure Resp where
  ok : Bool
  text : Str
deriving DecidableEq, Repr

/-- One iteration of the robots parsing loop: state is the `active` flag
and the accumulated `disallows` list. -/
def robotsStep (st : Bool × List Str) (raw : Str) : Bool × List Str :=
  let line := stripStr raw
  if line.isEmpty || startsWithStr line ("#".toList) then st
  else if startsWithStr (lowerStr line) ("user-agent:".toList) then
    (stripStr (afterColon line) == "*".toList, st.2)
  else if st.1 && startsWithStr (lowerStr line) ("disallow:".toList) then
    (st.1, st.2 ++ [stripStr (afterColon line)])
  else st

/-- The robots body parser: collect the `Disallow` values of the
`User-agent: *` blocks. -/
def parseRobots (text : Str) : List Str :=
  ((splitLines text).foldl robotsStep (false, [])).2

/-- `load_robots`: the ruleset after the single load at process start.
`fetched` is the result of fetching `/robots.txt` (`none` when no response
survived the retry loop); `raised` models the surrounding
`try ... except Exception: pass` firing, which leaves the rules at their
initial empty value. -/
def load_robots (fetched : Option Resp) (raised : Bool) : List Str :=
  if raised then []
  else
    match fetched with
    | none => []
    | some r => if r.ok then parseRobots r.text else []

/-- `robots_blocking_rule(path)`: the first disallow rule that is non-empty
and a prefix of the path, if any. -/
def robots_blocking_rule (rules : List Str) (path : Str) : Option Str :=
  rules.find? (fun d => !d.isEmpty && startsWithStr path d)

/-- `can_fetch_robots(url)`: receives the already-parsed URL path
(`urllib.parse.urlparse(url).path` is an external primitive); the script
substitutes `"/"` for an empty path.  Returns (allowed, blocking rule). -/
def can_fetch_robots (rules : List Str) (path : Str) : Bool × Option Str :=
  let p := if path.isEmpty then "/".toList else path
  let rule := robots_blocking_rule rules p
  (rule.isNone, rule)

/-!  The publication record and the page parser
(`parse_publication_page`). -/

/-- One output row: the 18 `COLUMNS` fields, all stored as strings exactly
as the script stores them in its row dict. -/
structure Record where
  title : Str
  authors : Str
  year : Str
  date : Str
  venue : Str
  type : Str
  tags : Str
  abstract : Str
  doi : Str
  pdf_url : Str
  code_url : Str
  language : Str
  url : Str
  slug : Str
  page_h1 : Str
  page_meta_title : Str
  page_meta_desc : Str
  raw_text_length : Str
deriving DecidableEq, Repr

/-- The initial row dict `{c: "" for c in COLUMNS}` with `url` set. -/
def emptyRecord (url : Str) : Record :=
  { title := [], authors := [], year := [], date := [], venue := [],
    type := [], tags := [], abstract := [], doi := [], pdf_url := [],
    code_url := [], language := [], url := url, slug := [], page_h1 := [],
    page_meta_title := [], page_meta_desc := [], raw_text_length := [] }

/-- The row cells of a record in `COLUMNS` order. -/
def recordToRow (r : Record) : List Str :=
  [r.title, r.authors, r.year, r.date, r.venue, r.type, r.tags, r.abstract,
   r.doi, r.pdf_url, r.code_url, r.language, r.url, r.slug, r.page_h1,
   r.page_meta_title, r.page_meta_desc, r.raw_text_length]

/-- The results of the external HTML-tree and regular-expression queries
that `parse_publication_page` performs on one fetched page.  Each field is
the raw answer of one external primitive; all combination logic applied to
these answers is translated in `parse_publication_page` itself. -/
structure Soup where
  /-- `get_text()` of the first `h1`/`h2` element, `none` when absent. -/
  h1 : Option Str
  /-- `content` attribute of the `og:title` (or `name=title`) meta tag. -/
  metaTitle : Option Str
  /-- `content` attribute of the `description` (or `og:description`) meta tag. -/
  metaDesc : Option Str
  /-- `soup.get_text(" ")`, the full visible text of the page. -/
  rawText : Str
  /-- All `a[href]` elements as (href attribute, `get_text(" ")`) pairs. -/
  anchors : List (Str × Str)
  /-- First match of the DOI regex in the cleaned page text. -/
  doiMatch : Option Str
  /-- First match of the date regex: (full `YYYY-MM-DD` match, year group). -/
  dateMatch : Option (Str × Str)
  /-- First match of the bare-year regex. -/
  yearMatch : Option Str
  /-- Group 2 of the author-label heuristic on the first matching label. -/
  authorsMatch : Option Str
  /-- `get_text()` of every `.tag, .badge, .label, .chip` element. -/
  tagTexts : List Str
  /-- Group 2 of the `Published in`/`In:` venue regex. -/
  venueMatch : Option Str
  /-- `get_text(" ")` of the first `p` after an `Abstract`/`Resume` header. -/
  abstractAfterHeader : Option Str
  /-- `get_text(" ")` of every `p` element, in document order. -/
  paragraphs : List Str
deriving DecidableEq, Repr

/-- The external world as the crawl sees it, one oracle per external
primitive: the fetch result per URL (status of the returned response,
`none` when the retry loop yielded no response), the parsed HTML per URL,
`urllib.parse.urlparse(url).path`, `urllib.parse.urljoin`, and the clock
value used for journal timestamps. -/
structure Site where
  status : Str → Option Nat
  soup : Str → Soup
  path : Str → Str
  urljoin : Str → Str → Str
  now : Str

/-- `guess_language_from_path` from the script. -/
def guess_language_from_path (path : Str) : Option Str :=
  let p := lowerStr path
  if startsWithStr p ("/fr/".toList) then some ("fr".toList)
  else if startsWithStr p ("/en/".toList) || startsWithStr p ("/en-".toList) then
    some ("en".toList)
  else none

/-- Python `path.strip("/")`. -/
def stripSlashes (s : Str) : Str :=
  ((s.dropWhile (fun c => c == '/')).reverse.dropWhile (fun c => c == '/')).reverse

/-- The PDF/code link classification loop of `parse_publication_page`,
one anchor at a time; each match overwrites the field. -/
def linkStep (site : Site) (url : Str) (d : Record) (a : Str × Str) : Record :=
  let href := stripStr a.1
  let text_a := lowerStr (stripStr a.2)
  let d :=
    if endsWithStr (lowerStr href) (".pdf".toList) || containsStr text_a ("pdf".toList) then
      { d with pdf_url := site.urljoin url href }
    else d
  if ["github.com".toList, "gitlab.com".toList, "code".toList, "source".toList].any
      (fun x => containsStr (lowerStr href) x) then
    { d with code_url := site.urljoin url href }
  else d

/-- The body of `parse_publication_page` once a response with `ok` status
is in hand, following the assignment order of the script. -/
def parse_page_body (site : Site) (url : Str) : Record :=
  let soup := site.soup url
  let title := match soup.h1 with | some t => clean_text t | none => []
  let meta_title := match soup.metaTitle with | some t => clean_text t | none => []
  let meta_desc := match soup.metaDesc with | some t => clean_text t | none => []
  let raw_text := clean_text soup.rawText
  let d0 := { emptyRecord url with
    raw_text_length := natToStr raw_text.length,
    page_h1 := title, page_meta_title := meta_title, page_meta_desc := meta_desc }
  let d1 := { d0 with doi := (soup.doiMatch).getD [] }
  let d2 := soup.anchors.foldl (linkStep site url) d1
  let d3 :=
    match soup.dateMatch with
    | some dm => { d2 with date := dm.1, year := dm.2 }
    | none => { d2 with year := (soup.yearMatch).getD [] }
  let d4 := { d3 with authors := (soup.authorsMatch).getD [] }
  let tags := (soup.tagTexts.map clean_text).filter (fun t => !t.isEmpty)
  let d5 := { d4 with
    tags := if tags.isEmpty then [] else joinWith (", ".toList) (pySortedSet tags) }
  let slug := stripSlashes (site.path url)
  let d6 := { d5 with
    slug := slug,
    language := (guess_language_from_path (site.path url)).getD [] }
  let d7 := { d6 with venue := match soup.venueMatch with | some v => stripStr v | none => [] }
  let abstract0 := match soup.abstractAfterHeader with | some t => clean_text t | none => []
  let abstract :=
    if abstract0.isEmpty then
      (((soup.paragraphs.map clean_text).find? (fun t => 160 < t.length)).getD [])
    else abstract0
  let d8 := { d7 with abstract := abstract }
  let d9 := { d8 with title := if title.isEmpty then meta_title else title }
  let typ :=
    if ["blog".toList, "news".toList].any (fun x => containsStr slug x) then "post".toList
    else if ["publication".toList, "paper".toList].any (fun x => containsStr slug x) then
      "paper".toList
    else []
  { d9 with type := typ }

/-- `parse_publication_page(url)`: an all-empty record (with the URL set)
when no ok response is available, the parsed record otherwise. -/
def parse_publication_page (site : Site) (url : Str) : Record :=
  match site.status url with
  | none => emptyRecord url
  | some st => if resp_ok st then parse_page_body site url else emptyRecord url

/-!  Relevance filtering (`is_relevant`) and the main loop. -/

/-- The number of configured keyword phrases occurring in the lowercased
text (`sum(1 for kw in KEYWORDS if kw in t)`). -/
def relevance (text : Str) : Nat :=
  KEYWORDS.countP (fun kw => containsStr (lowerStr text) kw)

/-- `is_relevant(text)`: at least one keyword hit. -/
def is_relevant (text : Str) : Bool := decide (1 ≤ relevance text)

/-- The searchable text of a record as assembled in `main`:
`" ".join([title, page_meta_title, page_meta_desc, abstract])`. -/
def hay (d : Record) : Str :=
  joinWith [' '] [d.title, d.page_meta_title, d.page_meta_desc, d.abstract]

/-- One compliance journal line (`IGNORED_BY_ROBOTS` entry). -/
structure JournalEntry where
  url : Str
  reason : Str
  matched_rule : Str
  checked_at_utc : Str
deriving DecidableEq, Repr

/-- The per-URL loop of `main`: robots gate, parse, relevance filter,
accumulating kept rows and journal entries in traversal order. -/
def mainLoop (rules : List Str) (site : Site) :
    List Str → List Record → List JournalEntry → List Record × List JournalEntry
  | [], rows, ign => (rows, ign)
  | url :: rest, rows, ign =>
    let res := can_fetch_robots rules (site.path url)
    if res.1 then
      let d := parse_publication_page site url
      if is_relevant (hay d) then mainLoop rules site rest (rows ++ [d]) ign
      else mainLoop rules site rest rows ign
    else
      mainLoop rules site rest rows
        (ign ++ [{ url := url, reason := "robots.txt disallow".toList,
                   matched_rule := (res.2).getD [], checked_at_utc := site.now }])

/-- The candidate-URL post-processing of `main`: keep the URLs starting
with the base URL, then `sorted(set(...))`. -/
def mainUrls (baseUrl : Str) (candidates : List Str) : List Str :=
  pySortedSet (candidates.filter (fun u => startsWithStr u baseUrl))

/-!  Export (`main` lines 437 to 447, `_write_empty_outputs`) and the
fail-soft boundary (`__main__`). -/

/-- Helper of `df.drop_duplicates(subset=["url"])`: keep each row whose
`url` was not seen before it. -/
def drop_duplicates_url_go (seen : List Str) : List Record → List Record
  | [] => []
  | r :: rest =>
    if r.url ∈ seen then drop_duplicates_url_go seen rest
    else r :: drop_duplicates_url_go (r.url :: seen) rest

/-- `df.drop_duplicates(subset=["url"], inplace=True, ignore_index=True)`:
pandas keeps the first occurrence of each key. -/
def drop_duplicates_url (rs : List Record) : List Record :=
  drop_duplicates_url_go [] rs

/-- The data rows of the exported spreadsheet: empty when no row was kept,
otherwise the rows deduplicated by `url` with the title column stripped
(`df["title"].fillna("").str.strip()`). -/
def exportRows (rows : List Record) : List Record :=
  if rows.isEmpty then []
  else (drop_duplicates_url rows).map (fun r => { r with title := stripStr r.title })

/-- One sheet of a tabular artifact: header and cell rows. -/
structure Sheet where
  columns : List Str
  cells : List (List Str)
deriving DecidableEq, Repr

/-- The workbook written by `df.to_excel`: a single sheet under the pandas
default name `Sheet1`, with the `COLUMNS` schema. -/
def exportWorkbook (rows : List Record) : List (Str × Sheet) :=
  [("Sheet1".toList, { columns := COLUMNS, cells := (exportRows rows).map recordToRow })]

/-- Column schema of the compliance journal CSV. -/
def JCOLUMNS : List Str :=
  ["url".toList, "reason".toList, "matched_rule".toList, "checked_at_utc".toList]

/-- The cells of one journal entry. -/
def journalEntryRow (e : JournalEntry) : List Str :=
  [e.url, e.reason, e.matched_rule, e.checked_at_utc]

/-- The compliance journal CSV as written both by `main` and by
`_write_empty_outputs`: header-only when no entry was accumulated, the
accumulated entries otherwise. -/
def journalCsv (entries : List JournalEntry) : Sheet :=
  if entries.isEmpty then { columns := JCOLUMNS, cells := [] }
  else { columns := JCOLUMNS, cells := entries.map journalEntryRow }

/-- An unhandled Python exception at the top level: its type name, message
and formatted traceback. -/
structure PyExc where
  excType : Str
  msg : Str
  trace : Str
deriving DecidableEq, Repr

/-- The text written to `scrape_error.log`:
`f"[{ts}] {type(e).__name__}: {e}\n"` followed by `"\nTraceback:\n"` and
the formatted traceback. -/
def errlogText (ts : Str) (e : PyExc) : Str :=
  "[".toList ++ ts ++ "] ".toList ++ e.excType ++ ": ".toList ++ e.msg ++
    "\n\nTraceback:\n".toList ++ e.trace

/-- Everything observable of one process run: exit status, the spreadsheet
workbook, the journal CSV, and the diagnostic log content (absent when no
unhandled exception occurred). -/
structure ProcessResult where
  exit_code : Nat
  workbook : List (Str × Sheet)
  journal : Sheet
  errlog : Option Str
deriving DecidableEq, Repr

/-- The `__main__` boundary: on success `main` has written the journal and
the workbook and the process exits 0; on an unhandled exception the
exception is logged, `_write_empty_outputs` writes the journal from the
accumulated `IGNORED_BY_ROBOTS` entries and a header-only workbook, and
the process still exits 0. -/
def run_script (ts : Str) (ignored : List JournalEntry)
    (mres : Except PyExc (List Record)) : ProcessResult :=
  match mres with
  | .ok rows =>
    { exit_code := 0, workbook := exportWorkbook rows,
      journal := journalCsv ignored, errlog := none }
  | .error e =>
    { exit_code := 0, workbook := exportWorkbook [],
      journal := journalCsv ignored, errlog := some (errlogText ts e) }

/-!  Pagination (`gather_candidate_urls`, the `rel=next` loop). -/

/-- One fetched listing page as the pagination loop sees it: the resolved
`rel=next` target, if any. -/
structure IndexPage where
  next : Option Str
deriving DecidableEq, Repr

/-- The `while next_link and page_guard < 50` loop of
`gather_candidate_urls`, counting the page fetches it performs for one
listing root.  `pages` is the fetch-and-parse oracle (`none` when the
fetch yields no ok response, which breaks the loop after that fetch);
`allowed` is the robots gate, which breaks the loop before fetching. -/
def paginateGo (pages : Str → Option IndexPage) (allowed : Str → Bool) :
    Option Str → Nat → Nat → Nat
  | none, _, fetches => fetches
  | some nextUrl, guard, fetches =>
    if _h : guard < PAGE_GUARD_CAP then
      if !(allowed nextUrl) then fetches
      else
        match pages nextUrl with
        | none => fetches + 1
        | some page => paginateGo pages allowed page.next (guard + 1) (fetches + 1)
    else fetches
termination_by _ guard _ => PAGE_GUARD_CAP - guard
decreasing_by simp_wf; omega

/-- Number of follow-up page fetches performed for one listing root whose
first index page reports `firstNext` as its `rel=next` link. -/
def pagination_fetches (pages : Str → Option IndexPage) (allowed : Str → Bool)
    (firstNext : Option Str) : Nat :=
  paginateGo pages allowed firstNext 0 0

/-!  The two-tier record extractor of the spec. -/

/-- Modelled from the spec: the two-strategy Record Extractor of section
4.4 (card-based primary strategy, block-based fallback, selection policy
with the 3-record threshold) is part of the repository revisions that are
not present under `src/`; only its selection policy is needed here.  Each
strategy turns one listing page content into records; the orchestrator
tries the primary strategy and discards its result in favour of the
fallback when it yields fewer than 3 records. -/
def extract_records (strategyA strategyB : Str → List Record) (page : Str) :
    List Record :=
  let recs := strategyA page
  if recs.length < 3 then strategyB page else recs

/-!  Derived characterisation of the emitted title, and a concrete page
used as test input. -/

/-- The title of a parsed record, spelled out: the cleaned text of the
first `h1`/`h2` heading, falling back to the cleaned meta title when the
heading text is empty or absent, and empty when no ok response exists. -/
def parsedTitle (site : Site) (url : Str) : Str :=
  match site.status url with
  | none => []
  | some st =>
    if resp_ok st then
      let soup := site.soup url
      let t := match soup.h1 with | some x => clean_text x | none => []
      if t.isEmpty then
        match soup.metaTitle with | some x => clean_text x | none => []
      else t
    else []

/-- A concrete parsed page with no heading and no meta title but a
topical meta description: the extracted title is empty while the record is
relevant. -/
def soup0 : Soup :=
  { h1 := none, metaTitle := none,
    metaDesc := some ("Quantum computing advances at the lab".toList),
    rawText := "Quantum computing advances at the lab".toList,
    anchors := [], doiMatch := none, dateMatch := none, yearMatch := none,
    authorsMatch := none, tagTexts := [], venueMatch := none,
    abstractAfterHeader := none, paragraphs := [] }

/-- A concrete external world serving `soup0` with status 200 for every
URL. -/
def site0 : Site :=
  { status := fun _ => some 200, soup := fun _ => soup0,
    path := fun _ => "/en/publications/x".toList,
    urljoin := fun _ href => href, now := "2026-10-12T00:00:00".toList }

/-- A concrete on-origin candidate URL. -/
def u0 : Str := "https://mila.quebec/en/publications/x".toList

/-!  Lemmas about the fetch layer. -/

theorem fetchGo_attempts_le (att : Nat → Outcome) :
    ∀ fuel i sl, (fetchGo att fuel i sl).attempts ≤ i + fuel := by
  intro fuel
  induction fuel with
  | zero => intro i sl; simp [fetchGo]
  | succ n ih =>
    intro i sl
    simp only [fetchGo]
    cases h : att i with
    | exc => exact le_trans (ih (i + 1) (sl + 1)) (by omega)
    | status s =>
      by_cases h1 : s = 429 ∨ s = 503
      · simp only [if_pos h1]
        exact le_trans (ih (i + 1) (sl + 1)) (by omega)
      · simp only [if_neg h1]
        cases h2 : resp_ok s
        · simp only [h2, Bool.false_eq_true, if_false]
          by_cases h3 : s = 401 ∨ s = 403 ∨ s = 404
          · simp only [if_pos h3]; omega
          · simp only [if_neg h3]
            exact le_trans (ih (i + 1) sl) (by omega)
        · simp only [h2, if_true]; omega

theorem fetchGo_skip (att : Nat → Outcome) (fuel i sl : Nat)
    (h : attempt_returns (att i) = false) :
    fetchGo att (fuel + 1) i sl =
      fetchGo att fuel (i + 1) (sl + if attempt_retries (att i) then 1 else 0) := by
  simp only [fetchGo]
  cases ho : att i with
  | exc => simp [attempt_retries]
  | status s =>
    simp only [ho, attempt_returns] at h
    by_cases h1 : s = 429 ∨ s = 503
    · simp [attempt_retries, h1]
    · simp only [if_neg h1] at h
      cases h2 : resp_ok s
      · simp only [h2, Bool.false_eq_true, if_false, decide_eq_false_iff_not] at h
        simp [attempt_retries, h1, h2, h]
      · simp [h2] at h

theorem fetchGo_return (att : Nat → Outcome) (fuel i sl s : Nat)
    (h : att i = .status s) (hr : attempt_returns (.status s) = true) :
    fetchGo att (fuel + 1) i sl =
      { response := some s, attempts := i + 1, sleeps := sl } := by
  simp only [fetchGo, h]
  simp only [attempt_returns] at hr
  by_cases h1 : s = 429 ∨ s = 503
  · simp [h1] at hr
  · simp only [if_neg h1] at hr ⊢
    cases h2 : resp_ok s
    · simp only [h2, Bool.false_eq_true, if_false, decide_eq_true_eq] at hr ⊢
      simp [hr]
    · simp [h2]

/-- Claim C4: `fetch` makes at most `MAX_RETRIES` (3) attempts; as soon as
an attempt yields a 2xx or a 401/403/404 status (every earlier attempt
having been a non-returning one), the response is returned immediately
with no further attempts; an HTTP 429/503 or a network-level exception
sleeps a backoff and continues with the next attempt; and when all three
attempts pass without a returning response, the result is `none`. -/
theorem C4_fetch_retry_contract :
    (∀ att : Nat → Outcome, (fetch att).attempts ≤ MAX_RETRIES) ∧
    (∀ (att : Nat → Outcome) (k s : Nat), k < MAX_RETRIES →
      (∀ j, j < k → attempt_returns (att j) = false) →
      att k = .status s →
      ((200 ≤ s ∧ s < 300) ∨ s = 401 ∨ s = 403 ∨ s = 404) →
      (fetch att).response = some s ∧ (fetch att).attempts = k + 1) ∧
    (∀ att : Nat → Outcome, attempt_retries (att 0) = true →
      fetch att = fetchGo att (MAX_RETRIES - 1) 1 (0 + 1)) ∧
    (∀ att : Nat → Outcome, (∀ j, j < MAX_RETRIES → attempt_returns (att j) = false) →
      (fetch att).response = none ∧ (fetch att).attempts = MAX_RETRIES) := by
  have hret : ∀ s : Nat, ((200 ≤ s ∧ s < 300) ∨ s = 401 ∨ s = 403 ∨ s = 404) →
      attempt_returns (.status s) = true := by
    intro s hs
    simp only [attempt_returns]
    rcases hs with h2 | h4
    · have : ¬(s = 429 ∨ s = 503) := by omega
      simp only [if_neg this]
      have : resp_ok s = true := by simp [resp_ok]; omega
      simp [this]
    · have : ¬(s = 429 ∨ s = 503) := by omega
      simp only [if_neg this]
      cases hro : resp_ok s
      · simp [hro, h4]
      · simp
  refine ⟨?_, ?_, ?_, ?_⟩
  · intro att
    simpa using fetchGo_attempts_le att MAX_RETRIES 0 0
  · intro att k s hk hprev hks hs
    have hr := hret s hs
    have hk3 : k < 3 := by simpa [MAX_RETRIES] using hk
    clear hk
    interval_cases k
    · rw [show fetch att = fetchGo att (2 + 1) 0 0 from rfl,
        fetchGo_return att 2 0 0 s hks hr]
      exact ⟨rfl, rfl⟩
    · rw [show fetch att = fetchGo att (2 + 1) 0 0 from rfl,
        fetchGo_skip att 2 0 0 (hprev 0 (by omega)),
        show (2 : Nat) = 1 + 1 from rfl,
        fetchGo_return att 1 1 _ s hks hr]
      exact ⟨rfl, rfl⟩
    · rw [show fetch att = fetchGo att (2 + 1) 0 0 from rfl,
        fetchGo_skip att 2 0 0 (hprev 0 (by omega)),
        show (2 : Nat) = 1 + 1 from rfl,
        fetchGo_skip att 1 1 _ (hprev 1 (by omega)),
        show (1 : Nat) = 0 + 1 from rfl,
        fetchGo_return att 0 2 _ s hks hr]
      exact ⟨rfl, rfl⟩
  · intro att h0
    rw [show fetch att = fetchGo att (2 + 1) 0 0 from rfl,
      fetchGo_skip att 2 0 0 (by
        revert h0
        cases ho : att 0 with
        | exc => simp [attempt_returns]
        | status s =>
          simp only [attempt_retries, attempt_returns, decide_eq_true_eq]
          intro hs
          simp [hs])]
    simp [h0, MAX_RETRIES]
  · intro att hall
    rw [show fetch att = fetchGo att (2 + 1) 0 0 from rfl,
      fetchGo_skip att 2 0 0 (hall 0 (by simp [MAX_RETRIES])),
      show (2 : Nat) = 1 + 1 from rfl,
      fetchGo_skip att 1 1 _ (hall 1 (by simp [MAX_RETRIES])),
      show (1 : Nat) = 0 + 1 from rfl,
      fetchGo_skip att 0 2 _ (hall 2 (by simp [MAX_RETRIES]))]
    exact ⟨rfl, rfl⟩

/-- Witness for C4 at concrete attempt sequences: a 200 on the first
attempt returns immediately; a 429 first attempt sleeps and continues;
three server errors exhaust the attempts and yield no response. -/
theorem C4_fetch_retry_contract_witness :
    ((fetch fun _ => .status 500).attempts ≤ MAX_RETRIES) ∧
    ((fetch fun _ => .status 200).response = some 200 ∧
      (fetch fun _ => .status 200).attempts = 0 + 1) ∧
    ((fetch fun n => if n = 0 then .status 429 else .status 200) =
      fetchGo (fun n => if n = 0 then .status 429 else .status 200)
        (MAX_RETRIES - 1) 1 (0 + 1)) ∧
    ((fetch fun _ => .status 500).response = none ∧
      (fetch fun _ => .status 500).attempts = MAX_RETRIES) := by
  refine ⟨C4_fetch_retry_contract.1 _, ?_, ?_, ?_⟩
  · exact C4_fetch_retry_contract.2.1 (fun _ => .status 200) 0 200
      (by simp [MAX_RETRIES]) (fun j hj => absurd hj (by omega)) rfl (by omega)
  · exact C4_fetch_retry_contract.2.2.1 _ (by decide)
  · exact C4_fetch_retry_contract.2.2.2 (fun _ => .status 500) (fun j _ => rfl)

/-!  Lemmas about the pagination bound. -/

theorem paginateGo_le (pages : Str → Option IndexPage) (allowed : Str → Bool) :
    ∀ n guard nl fetches, PAGE_GUARD_CAP - guard ≤ n →
      paginateGo pages allowed nl guard fetches ≤ fetches + (PAGE_GUARD_CAP - guard) := by
  intro n
  induction n with
  | zero =>
    intro guard nl fetches h
    cases nl with
    | none => simp [paginateGo]
    | some u =>
      rw [paginateGo]
      have hg : ¬(guard < PAGE_GUARD_CAP) := by omega
      simp [hg]
  | succ m ih =>
    intro guard nl fetches h
    cases nl with
    | none => simp [paginateGo]
    | some u =>
      rw [paginateGo]
      by_cases hg : guard < PAGE_GUARD_CAP
      · simp only [dif_pos hg]
        cases ha : allowed u
        · simp
        · simp only [ha, Bool.not_true, Bool.false_eq_true, if_false]
          cases hp : pages u with
          | none => simp only []; omega
          | some page =>
            have := ih (guard + 1) page.next (fetches + 1) (by omega)
            simp only []
            omega
      · simp [dif_neg hg]

/-- Claim C6: for a listing root, whatever pages and next links the site
reports (however adversarial), the number of follow-up page fetches of the
pagination loop never exceeds the hard cap of 50, so the traversal
terminates. -/
theorem C6_pagination_hard_cap :
    ∀ (pages : Str → Option IndexPage) (allowed : Str → Bool)
      (firstNext : Option Str),
      pagination_fetches pages allowed firstNext ≤ PAGE_GUARD_CAP := by
  intro pages allowed firstNext
  simpa using paginateGo_le pages allowed PAGE_GUARD_CAP 0 firstNext 0 (by omega)

/-!  The two-tier extractor fallback. -/

/-- Claim C3: when the primary strategy yields fewer than 3 records on a
page, its result is discarded and the output is exactly the fallback
strategy applied to the same page. -/
theorem C3_fallback_trigger :
    ∀ (strategyA strategyB : Str → List Record) (page : Str),
      (strategyA page).length < 3 →
      extract_records strategyA strategyB page = strategyB page := by
  intro sA sB page h
  simp [extract_records, h]

/-- Witness for C3: with a primary strategy yielding no record and a
fallback yielding one, the selection returns the fallback output. -/
theorem C3_fallback_trigger_witness :
    (([] : List Record).length < 3) ∧
    extract_records (fun _ => []) (fun _ => [emptyRecord ("u".toList)])
      ("page".toList) = [emptyRecord ("u".toList)] := by
  exact ⟨by decide,
    C3_fallback_trigger (fun _ => []) (fun _ => [emptyRecord ("u".toList)])
      ("page".toList) (by decide)⟩

/-!  The robots gate: fail-open behaviour and prefix blocking. -/

/-- Counterexample to claim C5: a reachable robots body with an empty
`Disallow:` value yields the non-empty ruleset `[""]`; the path `/a`
starts with the empty disallow prefix, yet the URL is not blocked, so
blocking is not equivalent to having some disallow rule as a path prefix. -/
theorem C5_counterexample :
    load_robots (some { ok := true, text := "User-agent: *\nDisallow:".toList })
        false = [[]] ∧
    ([([] : Str)] ≠ ([] : List Str)) ∧
    startsWithStr ("/a".toList) [] = true ∧
    can_fetch_robots [[]] ("/a".toList) = (true, none) := by
  decide

/-- Claim C5 as amended: an unfetchable robots resource (no response, or a
response without ok status) or an exception during the load leaves the
ruleset empty; with an empty ruleset every URL is allowed with no blocking
rule; and a URL is blocked exactly when its (non-empty) path starts with
some NON-EMPTY disallow prefix, any match blocking regardless of rule
order. -/
theorem C5_amended_failopen_and_prefix_blocking :
    (∀ raised, load_robots none raised = []) ∧
    (∀ (r : Resp) (raised : Bool), r.ok = false → load_robots (some r) raised = []) ∧
    (∀ fetched, load_robots fetched true = []) ∧
    (∀ path, can_fetch_robots [] path = (true, none)) ∧
    (∀ (rules : List Str) (path : Str), path ≠ [] →
      ((can_fetch_robots rules path).1 = false ↔
        ∃ d ∈ rules, d ≠ [] ∧ startsWithStr path d = true)) := by
  refine ⟨?_, ?_, ?_, ?_, ?_⟩
  · intro raised; cases raised <;> simp [load_robots]
  · intro r raised h; cases raised <;> simp [load_robots, h]
  · intro fetched; simp [load_robots]
  · intro path; simp [can_fetch_robots, robots_blocking_rule]
  · intro rules path hne
    have hp : (if path.isEmpty then "/".toList else path) = path := by
      cases path with
      | nil => exact absurd rfl hne
      | cons c cs => rfl
    simp only [can_fetch_robots, hp, robots_blocking_rule]
    rw [show ∀ o : Option Str, (o.isNone = false ↔ o.isSome = true) from by
      intro o; cases o <;> simp]
    rw [List.find?_isSome]
    constructor
    · rintro ⟨d, hd, hpd⟩
      simp only [Bool.and_eq_true, Bool.not_eq_true'] at hpd
      exact ⟨d, hd, by simpa using hpd.1, hpd.2⟩
    · rintro ⟨d, hd, hdne, hstart⟩
      exact ⟨d, hd, by simp [hstart, List.isEmpty_iff, hdne]⟩

/-- Witness for C5 at concrete inputs: the three fail-open cases, the
empty-ruleset allowance, and a blocked URL whose path starts with a
non-empty disallow prefix. -/
theorem C5_amended_failopen_and_prefix_blocking_witness :
    load_robots none false = [] ∧
    load_robots (some { ok := false, text := "irrelevant".toList }) false = [] ∧
    load_robots (some { ok := true, text := "User-agent: *\nDisallow: /admin".toList })
      true = [] ∧
    can_fetch_robots [] ("/a".toList) = (true, none) ∧
    (can_fetch_robots ["/admin".toList] ("/admin/x".toList)).1 = false := by
  refine ⟨C5_amended_failopen_and_prefix_blocking.1 false,
    C5_amended_failopen_and_prefix_blocking.2.1 _ false rfl,
    C5_amended_failopen_and_prefix_blocking.2.2.1 _,
    C5_amended_failopen_and_prefix_blocking.2.2.2.1 _, ?_⟩
  exact (C5_amended_failopen_and_prefix_blocking.2.2.2.2
      ["/admin".toList] ("/admin/x".toList) (by decide)).mpr
    ⟨"/admin".toList, by decide, by decide, by decide⟩

/-!  Deduplication of the exported rows. -/

theorem drop_duplicates_url_go_sublist :
    ∀ (rs : List Record) (seen : List Str),
      (drop_duplicates_url_go seen rs).Sublist rs := by
  intro rs
  induction rs with
  | nil => intro seen; simp [drop_duplicates_url_go]
  | cons r rest ih =>
    intro seen
    simp only [drop_duplicates_url_go]
    by_cases h : r.url ∈ seen
    · simp only [if_pos h]; exact (ih seen).cons r
    · simp only [if_neg h]; exact (ih (r.url :: seen)).cons₂ r

theorem drop_duplicates_url_go_mem_url :
    ∀ (rs : List Record) (seen : List Str) (r : Record),
      r ∈ drop_duplicates_url_go seen rs → r.url ∉ seen := by
  intro rs
  induction rs with
  | nil => intro seen r h; simp [drop_duplicates_url_go] at h
  | cons q rest ih =>
    intro seen r h
    simp only [drop_duplicates_url_go] at h
    by_cases hq : q.url ∈ seen
    · exact ih seen r (by simpa [if_pos hq] using h)
    · rw [if_neg hq] at h
      rcases List.mem_cons.mp h with h1 | h2
      · subst h1; exact hq
      · intro hmem
        exact ih (q.url :: seen) r h2 (List.mem_cons_of_mem _ hmem)

theorem drop_duplicates_url_go_pairwise :
    ∀ (rs : List Record) (seen : List Str),
      (drop_duplicates_url_go seen rs).Pairwise (fun a b => a.url ≠ b.url) := by
  intro rs
  induction rs with
  | nil => intro seen; simp [drop_duplicates_url_go]
  | cons q rest ih =>
    intro seen
    simp only [drop_duplicates_url_go]
    by_cases hq : q.url ∈ seen
    · simp only [if_pos hq]; exact ih seen
    · simp only [if_neg hq]
      refine List.pairwise_cons.mpr ⟨?_, ih (q.url :: seen)⟩
      intro b hb heq
      exact drop_duplicates_url_go_mem_url rest (q.url :: seen) b hb
        (heq ▸ List.mem_cons_self q.url seen)

theorem drop_duplicates_url_go_find? :
    ∀ (rs : List Record) (seen : List Str) (u : Str), u ∉ seen →
      (drop_duplicates_url_go seen rs).find? (fun r => r.url == u) =
        rs.find? (fun r => r.url == u) := by
  intro rs
  induction rs with
  | nil => intro seen u _; rfl
  | cons q rest ih =>
    intro seen u hu
    simp only [drop_duplicates_url_go]
    by_cases hq : q.url ∈ seen
    · have hne : (q.url == u) = false := by
        rw [beq_eq_false_iff_ne]
        intro e
        exact hu (e ▸ hq)
      rw [if_pos hq, ih seen u hu, List.find?_cons, hne]
    · rw [if_neg hq]
      cases hqu : (q.url == u)
      · rw [List.find?_cons, hqu, List.find?_cons, hqu]
        refine ih (q.url :: seen) u ?_
        intro hmem
        rcases List.mem_cons.mp hmem with h1 | h2
        · rw [beq_eq_false_iff_ne] at hqu
          exact hqu h1.symm
        · exact hu h2
      · rw [List.find?_cons, hqu, List.find?_cons, hqu]

/-- Counterexample to claim C2: two kept records that agree on all four of
(title, date, venue, doi) but have different URLs (and different
abstracts) BOTH survive the export-stage deduplication, so the 4-tuple is
not the identity key. -/
theorem C2_counterexample :
    (let rA : Record :=
      { emptyRecord ("https://mila.quebec/en/publications/a".toList) with
        title := "T".toList, date := "2024-01-01".toList, venue := "V".toList,
        doi := "10.1000/x".toList, abstract := "A1".toList }
     let rB : Record :=
      { emptyRecord ("https://mila.quebec/en/publications/b".toList) with
        title := "T".toList, date := "2024-01-01".toList, venue := "V".toList,
        doi := "10.1000/x".toList, abstract := "A2".toList }
     (rA.title, rA.date, rA.venue, rA.doi) = (rB.title, rB.date, rB.venue, rB.doi) ∧
       rA ≠ rB ∧ exportRows [rA, rB] = [rA, rB] ∧
       rA ∈ exportRows [rA, rB] ∧ rB ∈ exportRows [rA, rB]) := by
  decide

/-- Claim C2 as amended: the aggregated-output deduplication key is exactly
the `url` field.  The dedup output is a subsequence of the input, its URLs
are pairwise distinct, and for every URL the surviving record is the first
input record carrying it (so the first occurrence is kept and later
records with the same `url` are dropped, while records that agree on
(title, date, venue, doi) but differ in `url` all survive). -/
theorem C2_amended_dedup_by_url :
    ∀ rs : List Record,
      (drop_duplicates_url rs).Sublist rs ∧
      (drop_duplicates_url rs).Pairwise (fun a b => a.url ≠ b.url) ∧
      (∀ u : Str, (drop_duplicates_url rs).find? (fun r => r.url == u) =
        rs.find? (fun r => r.url == u)) := by
  intro rs
  exact ⟨drop_duplicates_url_go_sublist rs [],
    drop_duplicates_url_go_pairwise rs [],
    fun u => drop_duplicates_url_go_find? rs [] u (by simp)⟩

/-!  The exported workbook shape. -/

/-- Counterexample to claim C8: the workbook written by the script has a
single sheet under the pandas default name, and no sheet named `filtered`
or `all` exists, already on the empty run. -/
theorem C8_counterexample :
    ((exportWorkbook []).map Prod.fst = ["Sheet1".toList]) ∧
    (¬ ∃ p ∈ exportWorkbook [], p.1 = "filtered".toList) ∧
    (¬ ∃ p ∈ exportWorkbook [], p.1 = "all".toList) := by
  decide

/-- Claim C8 as amended: every run writes a spreadsheet with exactly one
sheet (the pandas default `Sheet1`), carrying the fixed ordered `COLUMNS`
schema, and the sheet with that schema is present even with zero data
rows — both on the normal path and on the crash path of the boundary. -/
theorem C8_amended_single_sheet_schema :
    ∀ rows : List Record,
      ((exportWorkbook rows).map Prod.fst = ["Sheet1".toList]) ∧
      ((exportWorkbook rows).map (fun p => p.2.columns) = [COLUMNS]) ∧
      (exportWorkbook [] = [("Sheet1".toList, { columns := COLUMNS, cells := [] })]) ∧
      (∀ (ts : Str) (ign : List JournalEntry) (e : PyExc),
        (run_script ts ign (Except.error e)).workbook =
          [("Sheet1".toList, { columns := COLUMNS, cells := [] })]) ∧
      (∀ (ts : Str) (ign : List JournalEntry) (rws : List Record),
        (run_script ts ign (Except.ok rws)).workbook = exportWorkbook rws) := by
  intro rows
  exact ⟨rfl, rfl, rfl, fun _ _ _ => rfl, fun _ _ _ => rfl⟩

/-!  The fail-soft process boundary. -/

/-- Counterexample to claim C1: when an unhandled exception strikes after
a compliance entry was accumulated, the crash path still exits 0 and logs
the exception, but the compliance journal it writes contains the
accumulated entry — it is NOT a header-only/empty artifact as the claim
states. -/
theorem C1_counterexample :
    (let ent : JournalEntry :=
      { url := "https://mila.quebec/fr/publications/".toList,
        reason := "robots.txt disallow".toList, matched_rule := "/fr/".toList,
        checked_at_utc := "2026-10-12T00:00:00".toList }
     let e : PyExc :=
      { excType := "ValueError".toList, msg := "boom".toList,
        trace := "Traceback (most recent call last): ...".toList }
     let res := run_script ("2026-10-12T00:00:01".toList) [ent] (Except.error e)
     res.exit_code = 0 ∧
       res.errlog = some (errlogText ("2026-10-12T00:00:01".toList) e) ∧
       res.journal.cells = [journalEntryRow ent] ∧
       res.journal.cells ≠ []) := by
  decide

/-- Claim C1 as amended: on any unhandled exception the process writes the
exception type, message and traceback to the diagnostic log, writes a
header-only spreadsheet, writes the compliance journal with exactly the
entries accumulated before the failure (header-only when none), and exits
0; and every run, successful or not, exits 0. -/
theorem C1_amended_failsoft :
    (∀ (ts : Str) (ign : List JournalEntry) (mres : Except PyExc (List Record)),
      (run_script ts ign mres).exit_code = 0) ∧
    (∀ (ts : Str) (ign : List JournalEntry) (e : PyExc),
      run_script ts ign (Except.error e) =
        { exit_code := 0,
          workbook := [("Sheet1".toList, { columns := COLUMNS, cells := [] })],
          journal := journalCsv ign,
          errlog := some ("[".toList ++ ts ++ "] ".toList ++ e.excType ++
            ": ".toList ++ e.msg ++ "\n\nTraceback:\n".toList ++ e.trace) }) ∧
    (∀ (ts : Str) (ign : List JournalEntry) (rows : List Record),
      run_script ts ign (Except.ok rows) =
        { exit_code := 0, workbook := exportWorkbook rows,
          journal := journalCsv ign, errlog := none }) := by
  refine ⟨?_, ?_, ?_⟩
  · intro ts ign mres; cases mres <;> rfl
  · intro ts ign e; rfl
  · intro ts ign rows; rfl

/-!  Membership lemmas for the sorted-set and dedup helpers. -/

theorem mem_insertSorted (x a : Str) :
    ∀ l : List Str, a ∈ insertSorted x l ↔ a = x ∨ a ∈ l := by
  intro l
  induction l with
  | nil => simp [insertSorted]
  | cons y ys ih =>
    simp only [insertSorted]
    by_cases h : strLe x y = true
    · rw [if_pos h]; simp [List.mem_cons]
    · rw [if_neg h]
      simp only [List.mem_cons, ih]
      tauto

theorem mem_sortStrs (a : Str) : ∀ l : List Str, a ∈ sortStrs l ↔ a ∈ l := by
  intro l
  induction l with
  | nil => simp [sortStrs]
  | cons x xs ih =>
    simp only [sortStrs, List.foldr_cons] at ih ⊢
    rw [mem_insertSorted x a (xs.foldr insertSorted [])]
    simp [ih, List.mem_cons]

theorem mem_dedupStrsGo (a : Str) :
    ∀ (l : List Str) (seen : List Str),
      a ∈ dedupStrsGo seen l ↔ (a ∈ l ∧ a ∉ seen) := by
  intro l
  induction l with
  | nil => intro seen; simp [dedupStrsGo]
  | cons x xs ih =>
    intro seen
    simp only [dedupStrsGo]
    by_cases h : x ∈ seen
    · rw [if_pos h, ih seen]
      constructor
      · rintro ⟨ha, hs⟩; exact ⟨List.mem_cons_of_mem x ha, hs⟩
      · rintro ⟨ha, hs⟩
        rcases List.mem_cons.mp ha with rfl | ha2
        · exact absurd h hs
        · exact ⟨ha2, hs⟩
    · rw [if_neg h]
      simp only [List.mem_cons, ih (x :: seen), List.mem_cons]
      constructor
      · rintro (rfl | ⟨ha, hs⟩)
        · exact ⟨Or.inl rfl, h⟩
        · exact ⟨Or.inr ha, fun hm => hs (Or.inr hm)⟩
      · rintro ⟨rfl | ha, hs⟩
        · exact Or.inl rfl
        · by_cases hax : a = x
          · exact Or.inl hax
          · exact Or.inr ⟨ha, fun hm => (hm.elim hax hs)⟩

theorem mem_pySortedSet (a : Str) (l : List Str) :
    a ∈ pySortedSet l ↔ a ∈ l := by
  simp [pySortedSet, mem_sortStrs, mem_dedupStrsGo]

theorem mem_mainUrls (baseUrl : Str) (candidates : List Str) (u : Str) :
    u ∈ mainUrls baseUrl candidates ↔
      u ∈ candidates ∧ startsWithStr u baseUrl = true := by
  simp [mainUrls, mem_pySortedSet, List.mem_filter]

/-!  Field-preservation lemmas for the parser. -/

theorem linkStep_url (site : Site) (url : Str) (d : Record) (a : Str × Str) :
    (linkStep site url d a).url = d.url := by
  simp only [linkStep]
  split <;> split <;> rfl

theorem foldl_linkStep_url (site : Site) (url : Str) :
    ∀ (anchors : List (Str × Str)) (d : Record),
      (anchors.foldl (linkStep site url) d).url = d.url := by
  intro anchors
  induction anchors with
  | nil => intro d; rfl
  | cons a rest ih =>
    intro d
    rw [List.foldl_cons, ih (linkStep site url d a), linkStep_url]

theorem parse_publication_page_url (site : Site) (url : Str) :
    (parse_publication_page site url).url = url := by
  unfold parse_publication_page
  cases h : site.status url with
  | none => rfl
  | some st =>
    show (if resp_ok st = true then parse_page_body site url
      else emptyRecord url).url = url
    split
    · unfold parse_page_body
      cases hdm : (site.soup url).dateMatch <;>
        simp [hdm, foldl_linkStep_url, emptyRecord]
    · rfl

theorem parse_publication_page_title (site : Site) (url : Str) :
    (parse_publication_page site url).title = parsedTitle site url := by
  unfold parse_publication_page parsedTitle
  cases h : site.status url with
  | none => rfl
  | some st =>
    show (if resp_ok st = true then parse_page_body site url
        else emptyRecord url).title =
      (if resp_ok st = true then
        (let soup := site.soup url
         let t := match soup.h1 with | some x => clean_text x | none => []
         if t.isEmpty then
           match soup.metaTitle with | some x => clean_text x | none => []
         else t)
       else [])
    split
    · rfl
    · rfl

/-!  Factoring of the per-URL loop of `main`. -/

theorem mainLoop_fst (rules : List Str) (site : Site) :
    ∀ (urls : List Str) (rows : List Record) (ign : List JournalEntry),
      (mainLoop rules site urls rows ign).1 =
        rows ++ ((urls.filter (fun u => (can_fetch_robots rules (site.path u)).1)).map
          (parse_publication_page site)).filter (fun d => is_relevant (hay d)) := by
  intro urls
  induction urls with
  | nil => intro rows ign; simp [mainLoop]
  | cons u rest ih =>
    intro rows ign
    simp only [mainLoop]
    cases hA : (can_fetch_robots rules (site.path u)).1
    · simp only [hA, Bool.false_eq_true, if_false, List.filter_cons, ih]
    · cases hR : is_relevant (hay (parse_publication_page site u))
      · simp [hA, hR, ih, List.filter_cons]
      · simp [hA, hR, ih, List.filter_cons, List.append_assoc]

/-- Claim C7: the keyword list has no duplicate phrase (so the hit count
counts distinct phrases), and a record is kept by the relevance filter of
the main loop exactly when at least 1 (the fixed minimum-hits threshold of
`is_relevant`) of the configured keyword phrases occurs case-insensitively
in its searchable text. -/
theorem C7_relevance_threshold :
    KEYWORDS.Nodup ∧
    (∀ (rules : List Str) (site : Site) (urls : List Str) (r : Record),
      r ∈ (mainLoop rules site urls [] []).1 ↔
        (r ∈ (urls.filter (fun u => (can_fetch_robots rules (site.path u)).1)).map
            (parse_publication_page site) ∧
          1 ≤ relevance (hay r))) := by
  refine ⟨by decide, ?_⟩
  intro rules site urls r
  rw [mainLoop_fst rules site urls [] []]
  simp [List.mem_filter, is_relevant]

/-- Counterexample to claim C9: a fetched page with no heading and no meta
title but a topically relevant meta description produces a record with an
EMPTY title, and that record is kept and exported — no title-based discard
exists in the script. -/
theorem C9_counterexample :
    (parse_publication_page site0 u0).title = [] ∧
    (mainLoop [] site0 [u0] [] []).1 = [parse_publication_page site0 u0] ∧
    parse_publication_page site0 u0 ∈
      exportRows (mainLoop [] site0 [u0] [] []).1 := by
  decide

/-- Claim C9 as amended: the emitted title is the cleaned first-heading
text, falling back to the cleaned meta title, and may be empty; records
are discarded only by the robots gate and the relevance filter, never for
lacking a title. -/
theorem C9_amended_title_no_discard :
    (∀ (site : Site) (url : Str),
      (parse_publication_page site url).title = parsedTitle site url) ∧
    (∀ (rules : List Str) (site : Site) (urls : List Str),
      (mainLoop rules site urls [] []).1 =
        ((urls.filter (fun u => (can_fetch_robots rules (site.path u)).1)).map
          (parse_publication_page site)).filter (fun d => is_relevant (hay d))) := by
  refine ⟨parse_publication_page_title, ?_⟩
  intro rules site urls
  simpa using mainLoop_fst rules site urls [] []

/-- Claim C10: every candidate URL surviving the base-URL filter starts
with the configured base URL, and every record of the exported rows has a
`url` field starting with the base URL — off-origin candidates are never
parsed and never exported. -/
theorem C10_rows_on_origin :
    ∀ (baseUrl : Str) (candidates : List Str) (rules : List Str) (site : Site),
      (∀ u ∈ mainUrls baseUrl candidates, startsWithStr u baseUrl = true) ∧
      (∀ r ∈ exportRows (mainLoop rules site (mainUrls baseUrl candidates) [] []).1,
        startsWithStr r.url baseUrl = true) := by
  intro baseUrl candidates rules site
  have hurls : ∀ u ∈ mainUrls baseUrl candidates, startsWithStr u baseUrl = true :=
    fun u hu => ((mem_mainUrls baseUrl candidates u).mp hu).2
  refine ⟨hurls, ?_⟩
  intro r hr
  set rows := (mainLoop rules site (mainUrls baseUrl candidates) [] []).1 with hrows
  unfold exportRows at hr
  by_cases hemp : rows.isEmpty
  · simp [hemp] at hr
  · simp only [hemp, Bool.false_eq_true, if_false] at hr
    obtain ⟨r', hr', rfl⟩ := List.mem_map.mp hr
    have hr'rows : r' ∈ rows := (drop_duplicates_url_go_sublist rows []).subset hr'
    rw [hrows, mainLoop_fst rules site (mainUrls baseUrl candidates) [] []] at hr'rows
    simp only [List.nil_append] at hr'rows
    have hr'map := (List.mem_filter.mp hr'rows).1
    obtain ⟨u, hu, rfl⟩ := List.mem_map.mp hr'map
    have hu' : u ∈ mainUrls baseUrl candidates := (List.mem_filter.mp hu).1
    have : (parse_publication_page site u).url = u := parse_publication_page_url site u
    simpa [this] using hurls u hu'

/-- Witness for C10 at a concrete crawl: one on-origin candidate is kept,
parsed, found relevant and exported, and both the URL list and the
exported record satisfy the base-URL prefix property. -/
theorem C10_rows_on_origin_witness :
    u0 ∈ mainUrls ("https://mila.quebec".toList) [u0] ∧
    startsWithStr u0 ("https://mila.quebec".toList) = true ∧
    parse_publication_page site0 u0 ∈
      exportRows (mainLoop [] site0
        (mainUrls ("https://mila.quebec".toList) [u0]) [] []).1 ∧
    startsWithStr (parse_publication_page site0 u0).url
      ("https://mila.quebec".toList) = true := by
  refine ⟨by decide,
    (C10_rows_on_origin ("https://mila.quebec".toList) [u0] [] site0).1 u0 (by decide),
    by decide,
    (C10_rows_on_origin ("https://mila.quebec".toList) [u0] [] site0).2 _ (by decide)⟩

end MilaScrape
